import Mathlib

/-!
Verification development for the MERIDIAN frontend (src/frontend/app.js).

The JavaScript source is shallowly embedded: each definition below is a
direct translation of the corresponding function in app.js (the source
line numbers are cited in doc comments).  DOM mutations are modelled as
updates to explicit state records holding exactly the pieces of document
state that the functions write.  JavaScript strings are modelled as Lean
strings or lists of characters, JavaScript numbers as ℚ (the code only
performs exact arithmetic on them), and counters as ℕ.
-/

namespace Meridian

/-! ### Frame decoder (app.js lines 272–297, `runInvestigation` stream loop)

The stream loop keeps a pending-text `buffer`, appends each decoded chunk,
splits on `'\n'`, pops the last (unterminated) piece back into the buffer,
and for each complete line keeps only those starting with `"data: "`,
taking `line.slice(6).trim()` as the frame payload (empty payloads are
skipped).  Frames here are the extracted payload strings; JSON parsing of
a payload is independent of chunking, so chunk-invariance at this level
gives chunk-invariance of the parsed event sequence. -/

/-- Translation of JavaScript `buffer.split('\n')` on a list of
characters: splitting on `'\n'` always yields at least one piece, the
piece after the final newline (possibly empty). -/
def splitNl : List Char → List (List Char)
  | [] => [[]]
  | c :: cs =>
    if c = '\n' then [] :: splitNl cs
    else
      match splitNl cs with
      | [] => [[c]]
      | h :: t => (c :: h) :: t

/-- Translation of JavaScript `lines.pop()`: returns the list without its
last element together with the last element (`[]` for an empty list). -/
def popLast : List (List Char) → List (List Char) × List Char
  | [] => ([], [])
  | [x] => ([], x)
  | x :: y :: xs =>
    let p := popLast (y :: xs)
    (x :: p.1, p.2)

/-- Translation of JavaScript `String.prototype.trim` (app.js line 287):
drop whitespace from both ends. -/
def trimChars (l : List Char) : List Char :=
  ((l.dropWhile Char.isWhitespace).reverse.dropWhile Char.isWhitespace).reverse

/-- The fixed payload marker `"data: "` (app.js line 286). -/
def dataMarker : List Char := ['d', 'a', 't', 'a', ':', ' ']

/-- Translation of the per-line step of the stream loop (app.js lines
285–288): a line yields a payload exactly when it starts with the marker
and `line.slice(6).trim()` is nonempty. -/
def parseLine (line : List Char) : Option (List Char) :=
  if dataMarker.isPrefixOf line then
    let jsonStr := trimChars (line.drop 6)
    if jsonStr = [] then none else some jsonStr
  else none

/-- The decoder state: the pending unterminated text and the payload
frames emitted so far. -/
structure DecoderState where
  buffer : List Char
  frames : List (List Char)
deriving DecidableEq, Repr

/-- Initial decoder state (app.js line 274: `var buffer = ''`). -/
def initDecoder : DecoderState := ⟨[], []⟩

/-- Translation of one iteration of the stream loop body (app.js lines
280–296): append the chunk, split off complete lines, keep the
unterminated remainder, and extract payloads from the complete lines. -/
def processChunk (st : DecoderState) (chunk : List Char) : DecoderState :=
  let parts := splitNl (st.buffer ++ chunk)
  let pl := popLast parts
  { buffer := pl.2, frames := st.frames ++ pl.1.filterMap parseLine }

/-- Running the whole stream loop over a sequence of chunks, starting
from the empty buffer; at end-of-data the remaining buffer is discarded
(the loop simply breaks at line 278). -/
def decodeStream (chunks : List (List Char)) : List (List Char) :=
  (chunks.foldl processChunk initDecoder).frames

/-! ### Event model and `handleEvent` state machine (app.js lines 13–14,
17–31, 55–73, 76–86, 89–128, 131–183, 186–246, 311–357)

The module-level mutable variables (`completedAgents`) and the DOM
elements written by `handleEvent` and its helpers are gathered into an
explicit `AppState` record.  Presentation-only DOM state that no claim
touches (the gauge animation, the badge, the per-agent thought typing
effect) is elided; everything the handlers write that bears on counters,
progress, status and the six agent cards is modelled. -/

/-- `TOTAL_AGENTS` (app.js line 14): 6 specialists + 1 synthesis. -/
def TOTAL_AGENTS : ℕ := 7

/-- Translation of `riskColor` (app.js lines 22–27). -/
def riskColor (score : ℚ) : String :=
  if score < 2.5 then "var(--green)"
  else if score < 5.0 then "var(--yellow)"
  else if score < 7.5 then "var(--orange)"
  else "var(--red)"

/-- `.replace(/ & /g, '-')` specialised to the pattern `" & "` used by
`agentId` (app.js line 18): left-to-right, non-overlapping. -/
def replaceAmp : List Char → List Char
  | ' ' :: '&' :: ' ' :: rest => '-' :: replaceAmp rest
  | c :: rest => c :: replaceAmp rest
  | [] => []

/-- `.replace(/ /g, '-')` (app.js line 18). -/
def replaceSpace : List Char → List Char
  | ' ' :: rest => '-' :: replaceSpace rest
  | c :: rest => c :: replaceSpace rest
  | [] => []

/-- Translation of `agentId` (app.js lines 17–19):
`name.toLowerCase().replace(/ & /g, '-').replace(/ /g, '-')`. -/
def agentId (name : String) : String :=
  ⟨replaceSpace (replaceAmp (name.data.map Char.toLower))⟩

/-- The six specialist card ids present in the document (app.js lines
91–92); `getElementById` returns an element only for these, so card
updates for any other agent id are no-ops. -/
def specialistIds : List String :=
  ["entity-discovery", "financial-signal", "legal-intelligence",
   "executive-background", "sentiment-narrative", "geo-jurisdiction"]

/-- Status-indicator class of an agent card. -/
inductive Indicator where
  | waiting
  | running
  | complete
deriving DecidableEq, Repr

/-- The pieces of one agent card that `resetAgents`, `markAgentRunning`
and `updateAgentCard` write (app.js lines 89–100, 131–170, 173–183). -/
structure AgentCard where
  indicator : Indicator
  scoreWidthPct : ℚ
  scoreColor : String
  findingsHtml : String
deriving DecidableEq, Repr

/-- An agent card as left by `resetAgents` (app.js lines 97–99). -/
def initialCard : AgentCard :=
  { indicator := .waiting
    scoreWidthPct := 0
    scoreColor := "var(--green)"
    findingsHtml := "Waiting..." }

/-- First paragraph of the findings text:
`data.findings.split('\n\n')[0]` (app.js line 157). -/
def firstParagraph : List Char → List Char
  | '\n' :: '\n' :: _ => []
  | c :: rest => c :: firstParagraph rest
  | [] => []

/-- Red-flag tag truncation (app.js line 163):
`flag.length > 60 ? flag.substring(0, 57) + '...' : flag`. -/
def truncateFlag (flag : String) : String :=
  if flag.data.length > 60 then (⟨flag.data.take 57⟩ : String) ++ "..." else flag

/-- The findings HTML built by `updateAgentCard` (app.js lines 156–168):
first paragraph wrapped in `<p>`, then up to three truncated flag tags. -/
def buildFindingsHtml (findings : String) (redFlags : List String) : String :=
  let base := "<p>" ++ (⟨firstParagraph findings.data⟩ : String) ++ "</p>"
  if redFlags.length > 0 then
    base ++ "<div class=\"agent-red-flags\">" ++
      String.join ((redFlags.take 3).map (fun flag =>
        "<span class=\"flag-tag\">" ++ truncateFlag flag ++ "</span>")) ++
      "</div>"
  else base

/-- The card transformation of `updateAgentCard` (app.js lines 138–169):
mark complete, set the score bar if `risk_score !== undefined`, and set
the findings HTML if `data.findings` is truthy. -/
def completeCard (c : AgentCard) (riskScore : Option ℚ)
    (findings : Option String) (redFlags : List String) : AgentCard :=
  let c := { c with indicator := Indicator.complete }
  let c :=
    match riskScore with
    | some rs => { c with scoreWidthPct := rs / 10 * 100, scoreColor := riskColor rs }
    | none => c
  match findings with
  | some f => if f = "" then c else { c with findingsHtml := buildFindingsHtml f redFlags }
  | none => c

/-- The events dispatched by `handleEvent` (app.js lines 311–357),
carrying the payload fields the handler reads. -/
inductive Event where
  | investigationStarted (id : String)
  | agentStarted (agent : String)
  | agentComplete (agent : String) (riskScore : Option ℚ)
      (findings : Option String) (redFlags : List String)
  | investigationComplete (overallScore : ℚ) (riskLevel : String)
  | agentThinking (agent : String) (thought : String)
  | streamEnd

/-- The document and module state written by `runInvestigation`,
`handleEvent` and their helpers. -/
structure AppState where
  completedAgents : ℕ
  agents : String → AgentCard
  progressPct : ℚ
  progressText : String
  progressVisible : Bool
  counterVisible : ℕ
  counterGreen : Bool
  statusText : String
  statusRunning : Bool
  finalResult : Option (ℚ × String)
  log : List (String × String)

/-- Translation of `updateProgress` (app.js lines 55–61):
`pct = (completed / total) * 100`. -/
def updateProgress (s : AppState) (completed total : ℚ) (text : String) : AppState :=
  { s with progressPct := completed / total * 100, progressText := text }

/-- Translation of `updateAgentCounter` (app.js lines 64–73):
`visible = Math.min(completedAgents, 6)`; the green colour is set when
`visible === 6` and never unset here. -/
def updateAgentCounter (s : AppState) : AppState :=
  let visible := min s.completedAgents 6
  { s with
    counterVisible := visible
    counterGreen := if visible = 6 then true else s.counterGreen }

/-- Translation of `addLog` (app.js lines 76–86): entries are prepended. -/
def addLog (s : AppState) (message ty : String) : AppState :=
  { s with log := (message, ty) :: s.log }

/-- Translation of `updateAgentCard` (app.js lines 131–170): the card is
looked up by `agentId`; if no element with that id exists (any agent
other than the six specialists, e.g. `Risk Synthesis`), nothing happens. -/
def updateAgentCard (s : AppState) (agentName : String) (riskScore : Option ℚ)
    (findings : Option String) (redFlags : List String) : AppState :=
  let id := agentId agentName
  if id ∈ specialistIds then
    { s with agents := fun k =>
        if k = id then completeCard (s.agents k) riskScore findings redFlags
        else s.agents k }
  else s

/-- Translation of `markAgentRunning` (app.js lines 173–183). -/
def markAgentRunning (s : AppState) (agentName : String) : AppState :=
  let id := agentId agentName
  if id ∈ specialistIds then
    { s with agents := fun k =>
        if k = id then { s.agents k with indicator := Indicator.running }
        else s.agents k }
  else s

/-- Translation of `showFinalResults` (app.js lines 186–246) restricted
to the modelled fields: the progress container is hidden and the final
score/level recorded (badge, gauge, flag list and summary are
presentation-only and carry no further state the claims touch). -/
def showFinalResults (s : AppState) (overallScore : ℚ) (riskLevel : String) : AppState :=
  { s with progressVisible := false, finalResult := some (overallScore, riskLevel) }

/-- `event.risk_score !== undefined ? ' (Risk: ' + ... : ''`
(app.js line 336). -/
def scoreSuffix (riskScore : Option ℚ) : String :=
  match riskScore with
  | some rs => " (Risk: " ++ toString rs ++ "/10)"
  | none => ""

/-- Translation of `handleEvent` (app.js lines 311–357).  Note that
`completedAgents++` (line 329) runs on every `agent_complete`, before
the synthesis check, and that `stream_end` (lines 354–355) does
nothing. -/
def handleEvent (s : AppState) (e : Event) : AppState :=
  match e with
  | .investigationStarted id =>
    let s := addLog s ("Investigation ID: " ++ id) ""
    updateProgress s 0 (TOTAL_AGENTS : ℚ) "Running Entity Discovery agent..."
  | .agentStarted agent =>
    let s := markAgentRunning s agent
    let s := addLog s ("Agent started: " ++ agent) "started"
    if agent ≠ "Risk Synthesis" then
      updateProgress s (s.completedAgents : ℚ) (TOTAL_AGENTS : ℚ)
        ("Running " ++ agent ++ " agent...")
    else
      updateProgress s (s.completedAgents : ℚ) (TOTAL_AGENTS : ℚ)
        "Synthesizing risk assessment..."
  | .agentComplete agent riskScore findings redFlags =>
    let s := { s with completedAgents := s.completedAgents + 1 }
    if agent = "Risk Synthesis" then
      let s := addLog s
        ("Risk Synthesis complete — Score: " ++ scoreSuffix riskScore ++ "/10")
        "complete"
      updateProgress s (TOTAL_AGENTS : ℚ) (TOTAL_AGENTS : ℚ)
        "Risk synthesis complete. Finalizing report..."
    else
      let s := updateAgentCard s agent riskScore findings redFlags
      let s := updateAgentCounter s
      let s := addLog s ("Agent complete: " ++ agent ++ scoreSuffix riskScore)
        "complete"
      updateProgress s (s.completedAgents : ℚ) (TOTAL_AGENTS : ℚ)
        (agent ++ " complete")
  | .investigationComplete overallScore riskLevel =>
    let s := showFinalResults s overallScore riskLevel
    let s := { s with statusRunning := false, statusText := "Complete" }
    addLog s
      ("Investigation complete — Overall Risk: " ++ toString overallScore ++
        "/10 [" ++ riskLevel ++ "]")
      "complete"
  | .agentThinking _ _ => s
  | .streamEnd => s

/-- Translation of `resetAgents` (app.js lines 89–128) on the modelled
fields: counter zeroed, all cards reset, log cleared, progress reset and
shown, agents counter reset. -/
def resetAgents (s : AppState) : AppState :=
  { s with
    completedAgents := 0
    agents := fun _ => initialCard
    progressPct := 0
    progressText := "Starting investigation..."
    progressVisible := true
    counterVisible := 0
    counterGreen := false
    finalResult := none
    log := [] }

/-- The state at page load; the status banner text before any
investigation is taken from the static markup and never read by the
handlers, so it is modelled as empty. -/
def pageState : AppState :=
  { completedAgents := 0
    agents := fun _ => initialCard
    progressPct := 0
    progressText := ""
    progressVisible := false
    counterVisible := 0
    counterGreen := false
    statusText := ""
    statusRunning := false
    finalResult := none
    log := [] }

/-- Translation of the prologue of `runInvestigation` (app.js lines
249–263): `resetAgents()`, status dot/text set to running, start log
entry, `updateProgress(0, TOTAL_AGENTS, ...)`. -/
def startState (target : String) : AppState :=
  let s := resetAgents pageState
  let s := { s with statusRunning := true, statusText := "Investigating..." }
  let s := addLog s ("Investigation started: \"" ++ target ++ "\"") "started"
  updateProgress s 0 (TOTAL_AGENTS : ℚ) ("Investigating \"" ++ target ++ "\"...")

/-- Applying a stream of decoded events in arrival order. -/
def applyEvents (s : AppState) (evs : List Event) : AppState :=
  evs.foldl handleEvent s

/-- The number of specialist cards currently marked complete. -/
def completeSpecialistCount (s : AppState) : ℕ :=
  specialistIds.countP (fun id => (s.agents id).indicator == Indicator.complete)

/-- Whether an event is an `agent_complete` event (any agent). -/
def isAgentCompleteEvent : Event → Bool
  | .agentComplete _ _ _ _ => true
  | _ => false

/-- A concrete stream prefix: completions for five of the six
specialists. -/
def demoFiveEvents : List Event :=
  [.agentComplete "Entity Discovery" (some 2) none [],
   .agentComplete "Financial Signal" (some 3) none [],
   .agentComplete "Legal Intelligence" (some 4) none [],
   .agentComplete "Executive Background" (some 5) none [],
   .agentComplete "Sentiment & Narrative" (some 6) none []]

/-- A concrete stream: completions for all six specialists. -/
def demoSpecialistEvents : List Event :=
  demoFiveEvents ++ [.agentComplete "Geo & Jurisdiction" (some 9) none []]

/-- Completions for all six specialists followed directly by
`investigation_complete` (no synthesis `agent_complete`). -/
def demoEvents : List Event :=
  demoSpecialistEvents ++ [.investigationComplete 8.9 "CRITICAL"]

/-! ### Historical-record reconstruction (app.js lines 488–532)

`loadPastInvestigation` derives the recommendation from the stored
overall score with fixed thresholds. -/

/-- Translation of the recommendation derivation in
`loadPastInvestigation` (app.js lines 521–523):
`overall_risk_score >= 7.5 ? 'REJECT' : >= 5.0 ? 'INVESTIGATE_FURTHER'
: >= 2.5 ? 'CONDITIONAL' : 'APPROVE'`. -/
def proceedRecommendation (overallScore : ℚ) : String :=
  if overallScore ≥ 7.5 then "REJECT"
  else if overallScore ≥ 5.0 then "INVESTIGATE_FURTHER"
  else if overallScore ≥ 2.5 then "CONDITIONAL"
  else "APPROVE"

/-! ### Compare-mode selection controller (app.js lines 698–805)

The module variables `_compareMode` and `_compareSelected` together with
the contents of the comparison section are gathered into a
`CompareState`; records are identified by their index into
`_compareInvestigations`. -/

/-- Compare-mode selection state: the `_compareMode` flag, the
`_compareSelected` index list, and the pair currently rendered in the
comparison section (`none` while it is hidden). -/
structure CompareState where
  compareMode : Bool
  selected : List ℕ
  comparison : Option (ℕ × ℕ)
deriving DecidableEq, Repr

/-- Entering compare mode (app.js lines 702–705): `_compareMode = true`,
`_compareSelected = []`. -/
def enterCompareMode (s : CompareState) : CompareState :=
  { s with compareMode := true, selected := [] }

/-- Translation of `showComparison` (app.js lines 793–805) on the
modelled state: the comparison section shows the pair and compare mode
resets to normal. -/
def showComparison (s : CompareState) (a b : ℕ) : CompareState :=
  { s with comparison := some (a, b), compareMode := false }

/-- Translation of the compare-card click handler (app.js lines
770–785): if the index is already selected it is removed (`splice` at
`indexOf`), otherwise it is appended only while fewer than two are held;
then, whenever exactly two are held, `showComparison` runs on the pair. -/
def clickCompareCard (s : CompareState) (idx : ℕ) : CompareState :=
  let sel :=
    if idx ∈ s.selected then s.selected.erase idx
    else if s.selected.length < 2 then s.selected ++ [idx]
    else s.selected
  let s' := { s with selected := sel }
  if sel.length = 2 then showComparison s' (sel.getD 0 0) (sel.getD 1 0) else s'

/-- A sequence of card clicks applied in order. -/
def applyClicks (s : CompareState) (clicks : List ℕ) : CompareState :=
  clicks.foldl clickCompareCard s

/-- The invariant maintained by the compare-selection controller: at most
two records are held, and whenever two are held the comparison of that
pair has been emitted and the mode already reset to normal. -/
def CompareInv (s : CompareState) : Prop :=
  s.selected.length ≤ 2 ∧
  (s.selected.length = 2 →
    s.comparison = some (s.selected.getD 0 0, s.selected.getD 1 0) ∧
    s.compareMode = false)

/-! ### Corporate network graph (app.js lines 847–956, `renderNetworkGraph`)

The entity payload fields read by the renderer, the node list it builds,
and its layout.  The rendered outcome distinguishes suppression
(`display: none`), the one-node placeholder, and a drawn graph. -/

/-- An entity record as read by `renderNetworkGraph`: `name`,
`entity_name` and `jurisdiction`, with the empty string standing for a
missing (falsy) field. -/
structure RawEntity where
  name : String
  entityName : String
  jurisdiction : String
deriving DecidableEq, Repr

/-- A node of the graph (app.js lines 868–884). -/
structure GNode where
  id : String
  label : String
  nodeType : String
  jurisdiction : String
deriving DecidableEq, Repr

/-- Subsidiary label fallback (app.js line 872):
`sub.name || sub.entity_name || ('Sub ' + (i + 1))`. -/
def subNodeLabel (sub : RawEntity) (i : ℕ) : String :=
  if sub.name ≠ "" then sub.name
  else if sub.entityName ≠ "" then sub.entityName
  else "Sub " ++ toString (i + 1)

/-- Related-entity label fallback (app.js line 880). -/
def relNodeLabel (rel : RawEntity) (i : ℕ) : String :=
  if rel.name ≠ "" then rel.name
  else if rel.entityName ≠ "" then rel.entityName
  else "Related " ++ toString (i + 1)

/-- The node list built by `renderNetworkGraph` (app.js lines 863–884):
the primary entity first (label `'Unknown'` when unnamed), then one node
per subsidiary and one per related entity. -/
def buildNodes (primaryName primaryJurisdiction : String)
    (subs related : List RawEntity) : List GNode :=
  ⟨"primary", if primaryName ≠ "" then primaryName else "Unknown",
    "primary", primaryJurisdiction⟩ ::
    (subs.enum.map (fun p =>
        ⟨"sub-" ++ toString p.1, subNodeLabel p.2 p.1, "subsidiary",
          p.2.jurisdiction⟩) ++
      related.enum.map (fun p =>
        ⟨"rel-" ++ toString p.1, relNodeLabel p.2 p.1, "related",
          p.2.jurisdiction⟩))

/-- What the renderer does with the container. -/
inductive GraphOutcome where
  | hidden
  | placeholder
  | graph (nodes : List GNode)
deriving DecidableEq, Repr

/-- Translation of the dispatch of `renderNetworkGraph` (app.js lines
856–889): suppress when the primary has no name *and* there are no
subsidiaries (`!primary.name && subs.length === 0` — the related list is
not consulted); show the `'No subsidiaries or related entities found'`
placeholder when the node list has exactly one node; otherwise draw the
graph. -/
def renderNetworkGraph (primaryName primaryJurisdiction : String)
    (subs related : List RawEntity) : GraphOutcome :=
  if primaryName = "" ∧ subs = [] then .hidden
  else
    let nodes := buildNodes primaryName primaryJurisdiction subs related
    if nodes.length = 1 then .placeholder
    else .graph nodes

/-- Translation of the layout block of `renderNetworkGraph` (app.js
lines 892–907): `width = clientWidth || 700`,
`height = max(320, nodes.length * 30)`, centre `(width/2, height/2)`,
`radius = min(width, height) * 0.35`, the primary node at the centre and
the i-th of the N children on the circle at angle `2πi/N − π/2`. -/
noncomputable def nodePositions (clientWidth : ℚ) (nodes : List GNode) :
    List (ℝ × ℝ) :=
  let width : ℚ := if clientWidth = 0 then 700 else clientWidth
  let height : ℚ := max 320 ((nodes.length : ℚ) * 30)
  let cx : ℚ := width / 2
  let cy : ℚ := height / 2
  let radius : ℚ := min width height * 0.35
  ((cx : ℝ), (cy : ℝ)) ::
    (List.range (nodes.length - 1)).map (fun (i : ℕ) =>
      ((cx : ℝ) + (radius : ℝ) *
          Real.cos (2 * Real.pi * (i : ℝ) / ((nodes.length - 1 : ℕ) : ℝ) -
            Real.pi / 2),
       (cy : ℝ) + (radius : ℝ) *
          Real.sin (2 * Real.pi * (i : ℝ) / ((nodes.length - 1 : ℕ) : ℝ) -
            Real.pi / 2)))

/-- From the spec's words: the width of the bounding area (the container
width, with a fixed default when it is unset). -/
def specAreaWidth (clientWidth : ℚ) : ℚ :=
  if clientWidth = 0 then 700 else clientWidth

/-- From the spec's words: the height of the bounding area — the maximum
of a fixed minimum and a value proportional to the node count. -/
def specAreaHeight (nodeCount : ℕ) : ℚ :=
  max 320 ((nodeCount : ℚ) * 30)

/-- From the spec's words: the i-th of N children sits at angle
`(2π·i/N) − π/2`. -/
noncomputable def specChildAngle (N i : ℕ) : ℝ :=
  2 * Real.pi * (i : ℝ) / (N : ℝ) - Real.pi / 2

/-- From the spec's words: the i-th child's position — on the circle
centred at the geometric centre of the area, with radius a fixed
fraction (0.35) of the smaller of the area's width and height, at
`specChildAngle N i`. -/
noncomputable def specChildPosition (width height : ℚ) (N i : ℕ) : ℝ × ℝ :=
  (((width / 2 : ℚ) : ℝ) + ((min width height * 0.35 : ℚ) : ℝ) *
      Real.cos (specChildAngle N i),
   ((height / 2 : ℚ) : ℝ) + ((min width height * 0.35 : ℚ) : ℝ) *
      Real.sin (specChildAngle N i))

end Meridian

namespace Meridian

theorem splitNl_ne_nil (l : List Char) : splitNl l ≠ [] := by
  induction l with
  | nil => simp [splitNl]
  | cons c cs ih =>
    simp only [splitNl]
    split
    · simp
    · match h : splitNl cs with
      | [] => simp
      | h' :: t => simp

theorem popLast_cons_of_ne_nil (x : List Char) (l : List (List Char)) (h : l ≠ []) :
    popLast (x :: l) = (x :: (popLast l).1, (popLast l).2) := by
  match l with
  | [] => exact absurd rfl h
  | y :: xs => rfl

theorem popLast_append_of_ne_nil (A B : List (List Char)) (h : B ≠ []) :
    popLast (A ++ B) = (A ++ (popLast B).1, (popLast B).2) := by
  induction A with
  | nil => simp
  | cons x A ih =>
    have hAB : A ++ B ≠ [] := by
      intro hc
      exact h (List.append_eq_nil.mp hc).2
    rw [List.cons_append, popLast_cons_of_ne_nil x (A ++ B) hAB, ih]
    simp

theorem splitNl_append (xs ys : List Char) :
    splitNl (xs ++ ys) =
      (popLast (splitNl xs)).1 ++ splitNl ((popLast (splitNl xs)).2 ++ ys) := by
  induction xs with
  | nil => simp [splitNl, popLast]
  | cons c xs ih =>
    by_cases hc : c = '\n'
    · subst hc
      have hne := splitNl_ne_nil xs
      rw [List.cons_append]
      show splitNl ('\n' :: (xs ++ ys)) = _
      rw [show splitNl ('\n' :: (xs ++ ys)) = [] :: splitNl (xs ++ ys) from by
        simp [splitNl]]
      rw [show splitNl ('\n' :: xs) = [] :: splitNl xs from by simp [splitNl]]
      rw [popLast_cons_of_ne_nil [] (splitNl xs) hne]
      rw [List.cons_append, ih]
    · match hS : splitNl xs with
      | [] => exact absurd hS (splitNl_ne_nil xs)
      | h :: t =>
        match t with
        | [] =>
          have e1 : splitNl (c :: xs) = [c :: h] := by simp [splitNl, hc, hS]
          have hxy : splitNl (xs ++ ys) = splitNl (h ++ ys) := by
            rw [ih, hS]
            simp [popLast]
          have e2 : splitNl (c :: (xs ++ ys)) = splitNl (c :: (h ++ ys)) := by
            simp [splitNl, hc, hxy]
          rw [List.cons_append, e2, e1]
          simp [popLast]
        | t0 :: t' =>
          have hne : (t0 :: t') ≠ ([] : List (List Char)) := by simp
          have hS' : splitNl (c :: xs) = (c :: h) :: t0 :: t' := by
            simp [splitNl, hc, hS]
          have hx : splitNl (xs ++ ys) =
              h :: ((popLast (t0 :: t')).1 ++
                splitNl ((popLast (t0 :: t')).2 ++ ys)) := by
            rw [ih, hS, popLast_cons_of_ne_nil h (t0 :: t') hne]
            simp
          have eL : splitNl (c :: (xs ++ ys)) =
              (c :: h) :: ((popLast (t0 :: t')).1 ++
                splitNl ((popLast (t0 :: t')).2 ++ ys)) := by
            simp [splitNl, hc, hx]
          rw [List.cons_append, eL, hS',
            popLast_cons_of_ne_nil (c :: h) (t0 :: t') hne]
          simp

theorem processChunk_append (st : DecoderState) (c1 c2 : List Char) :
    processChunk (processChunk st c1) c2 = processChunk st (c1 ++ c2) := by
  unfold processChunk
  have hsp : splitNl (st.buffer ++ (c1 ++ c2)) =
      (popLast (splitNl (st.buffer ++ c1))).1 ++
        splitNl ((popLast (splitNl (st.buffer ++ c1))).2 ++ c2) := by
    rw [← List.append_assoc, splitNl_append]
  have hTne := splitNl_ne_nil ((popLast (splitNl (st.buffer ++ c1))).2 ++ c2)
  simp only [hsp]
  rw [popLast_append_of_ne_nil _ _ hTne]
  simp [List.filterMap_append, List.append_assoc]

theorem foldl_processChunk (cs : List (List Char)) :
    ∀ (c : List Char) (st : DecoderState),
      List.foldl processChunk st (c :: cs) = processChunk st (c ++ cs.flatten) := by
  induction cs with
  | nil => intro c st; simp
  | cons d cs ih =>
    intro c st
    rw [List.foldl_cons]
    have := ih d (processChunk st c)
    rw [show List.foldl processChunk (processChunk st c) (d :: cs) =
        processChunk (processChunk st c) (d ++ cs.flatten) from this]
    rw [processChunk_append]
    simp [List.append_assoc]

theorem decodeStream_eq_join (cs : List (List Char)) :
    decodeStream cs = (processChunk initDecoder cs.flatten).frames := by
  match cs with
  | [] =>
    show ([] : List (List Char)) = _
    simp [processChunk, initDecoder, splitNl, popLast]
  | c :: cs =>
    unfold decodeStream
    rw [foldl_processChunk cs c initDecoder]
    rfl

/-- Claim C1: for every underlying text stream and all ways of splitting
it into successive chunks (mid-frame, mid-marker, one character at a
time, …), the frame-decoding loop of `runInvestigation` (app.js lines
272–297) yields the identical sequence of decoded payload frames: the
chunk is appended to a single pending buffer, complete newline-delimited
lines are split off, the unterminated remainder stays buffered, and only
lines beginning with the marker `"data: "` are parsed. -/
theorem decodeStream_chunking_invariant (cs₁ cs₂ : List (List Char))
    (h : cs₁.flatten = cs₂.flatten) : decodeStream cs₁ = decodeStream cs₂ := by
  rw [decodeStream_eq_join, decodeStream_eq_join, h]

/-- Witness for C1: the example stream
`"data: ping\ndata:\ndata: pong\npart"` decoded one-character-at-a-time
agrees with decoding it as a single chunk (and the partial trailing line
is dropped in both). -/
theorem decodeStream_chunking_invariant_witness :
    (("data: ping\ndata:\ndata: pong\npart" : String).data.map
        (fun c => [c])).flatten =
      [("data: ping\ndata:\ndata: pong\npart" : String).data].flatten ∧
    decodeStream (("data: ping\ndata:\ndata: pong\npart" : String).data.map
        (fun c => [c])) =
      decodeStream [("data: ping\ndata:\ndata: pong\npart" : String).data] :=
  ⟨by decide,
   decodeStream_chunking_invariant _ _ (by decide)⟩

/-! ### State-machine lemmas -/

theorem completeCard_idem (c : AgentCard) (rs : Option ℚ) (f : Option String)
    (fl : List String) :
    completeCard (completeCard c rs f fl) rs f fl = completeCard c rs f fl := by
  cases rs <;> cases f <;> simp [completeCard] <;> split_ifs <;> rfl

theorem updateAgentCard_agents (s : AppState) (a : String) (rs : Option ℚ)
    (f : Option String) (fl : List String) :
    (updateAgentCard s a rs f fl).agents = fun k =>
      if agentId a ∈ specialistIds ∧ k = agentId a
      then completeCard (s.agents k) rs f fl else s.agents k := by
  simp only [updateAgentCard]
  split_ifs with h
  · funext k
    by_cases hk : k = agentId a <;> simp [h, hk]
  · funext k
    simp [h]

theorem handleEvent_agentComplete_agents (s : AppState) (agent : String)
    (rs : Option ℚ) (f : Option String) (fl : List String) :
    (handleEvent s (.agentComplete agent rs f fl)).agents =
      (updateAgentCard s agent rs f fl).agents := by
  by_cases hA : agent = "Risk Synthesis"
  · have hid : agentId "Risk Synthesis" ∉ specialistIds := by decide
    simp [handleEvent, hA, addLog, updateProgress, updateAgentCard, hid]
  · simp only [handleEvent, if_neg hA, addLog, updateProgress,
      updateAgentCounter, updateAgentCard]
    split_ifs <;> rfl

theorem handleEvent_agentComplete_completedAgents (s : AppState) (agent : String)
    (rs : Option ℚ) (f : Option String) (fl : List String) :
    (handleEvent s (.agentComplete agent rs f fl)).completedAgents =
      s.completedAgents + 1 := by
  by_cases hA : agent = "Risk Synthesis"
  · simp [handleEvent, hA, addLog, updateProgress]
  · simp only [handleEvent, if_neg hA, addLog, updateProgress,
      updateAgentCounter, updateAgentCard]
    split_ifs <;> rfl

theorem handleEvent_completedAgents (s : AppState) (e : Event) :
    (handleEvent s e).completedAgents =
      s.completedAgents + (if isAgentCompleteEvent e then 1 else 0) := by
  cases e with
  | agentComplete agent rs f fl =>
    simp [handleEvent_agentComplete_completedAgents, isAgentCompleteEvent]
  | agentStarted agent =>
    have hs : (handleEvent s (.agentStarted agent)).completedAgents =
        s.completedAgents := by
      simp only [handleEvent, addLog, updateProgress, markAgentRunning]
      split_ifs <;> rfl
    simp [hs, isAgentCompleteEvent]
  | investigationStarted id =>
    simp [handleEvent, isAgentCompleteEvent, addLog, updateProgress]
  | investigationComplete overallScore riskLevel =>
    simp [handleEvent, isAgentCompleteEvent, addLog, showFinalResults]
  | agentThinking agent thought =>
    simp [handleEvent, isAgentCompleteEvent]
  | streamEnd =>
    simp [handleEvent, isAgentCompleteEvent]

theorem handleEvent_counterVisible_le (s : AppState) (e : Event)
    (h : s.counterVisible ≤ 6) : (handleEvent s e).counterVisible ≤ 6 := by
  cases e with
  | agentComplete agent rs f fl =>
    by_cases hA : agent = "Risk Synthesis"
    · simpa [handleEvent, hA, addLog, updateProgress] using h
    · simp only [handleEvent, if_neg hA, addLog, updateProgress,
        updateAgentCounter, updateAgentCard]
      split_ifs <;> exact Nat.min_le_right _ _
  | agentStarted agent =>
    simp only [handleEvent, addLog, updateProgress, markAgentRunning]
    split_ifs <;> exact h
  | investigationStarted id =>
    simpa [handleEvent, addLog, updateProgress] using h
  | investigationComplete overallScore riskLevel =>
    simpa [handleEvent, addLog, showFinalResults] using h
  | agentThinking agent thought =>
    simpa [handleEvent] using h
  | streamEnd =>
    simpa [handleEvent] using h

theorem applyEvents_counterVisible_le (evs : List Event) :
    ∀ s : AppState, s.counterVisible ≤ 6 →
      (applyEvents s evs).counterVisible ≤ 6 := by
  induction evs with
  | nil => intro s h; exact h
  | cons e evs ih =>
    intro s h
    exact ih (handleEvent s e) (handleEvent_counterVisible_le s e h)

theorem applyEvents_append (s : AppState) (l1 l2 : List Event) :
    applyEvents s (l1 ++ l2) = applyEvents (applyEvents s l1) l2 := by
  simp [applyEvents, List.foldl_append]

theorem handleEvent_specialist_progressPct (s : AppState) (agent : String)
    (rs : Option ℚ) (f : Option String) (fl : List String)
    (hA : agent ≠ "Risk Synthesis") :
    (handleEvent s (.agentComplete agent rs f fl)).progressPct =
      ((s.completedAgents : ℚ) + 1) / 7 * 100 := by
  simp only [handleEvent, if_neg hA, addLog, updateProgress,
    updateAgentCounter, updateAgentCard, TOTAL_AGENTS]
  split_ifs <;> dsimp only <;> push_cast <;> ring

theorem handleEvent_synthesis_progressPct (s : AppState) (rs : Option ℚ)
    (f : Option String) (fl : List String) :
    (handleEvent s (.agentComplete "Risk Synthesis" rs f fl)).progressPct =
      100 := by
  have hp : (handleEvent s (.agentComplete "Risk Synthesis" rs f fl)).progressPct =
      (TOTAL_AGENTS : ℚ) / (TOTAL_AGENTS : ℚ) * 100 := by
    simp [handleEvent, addLog, updateProgress]
  rw [hp]
  norm_num [TOTAL_AGENTS]

theorem handleEvent_investigationComplete_state (s : AppState) (a : ℚ)
    (b : String) :
    (handleEvent s (.investigationComplete a b)).progressPct = s.progressPct ∧
    (handleEvent s (.investigationComplete a b)).statusText = "Complete" ∧
    (handleEvent s (.investigationComplete a b)).progressVisible = false :=
  ⟨rfl, rfl, rfl⟩

theorem demoRun_final_state :
    (applyEvents (startState "Nexus Global Holdings") demoEvents).progressPct =
      600 / 7 ∧
    (applyEvents (startState "Nexus Global Holdings") demoEvents).statusText =
      "Complete" ∧
    (applyEvents (startState "Nexus Global Holdings") demoEvents).progressVisible =
      false := by
  have h5 : (applyEvents (startState "Nexus Global Holdings")
      demoFiveEvents).completedAgents = 5 := by decide
  have h6 : (applyEvents (startState "Nexus Global Holdings")
      demoSpecialistEvents).progressPct = 600 / 7 := by
    show (handleEvent (applyEvents (startState "Nexus Global Holdings")
        demoFiveEvents)
        (.agentComplete "Geo & Jurisdiction" (some 9) none [])).progressPct =
      600 / 7
    rw [handleEvent_specialist_progressPct _ _ _ _ _ (by decide), h5]
    norm_num
  have hfin : applyEvents (startState "Nexus Global Holdings") demoEvents =
      handleEvent (applyEvents (startState "Nexus Global Holdings")
        demoSpecialistEvents) (.investigationComplete 8.9 "CRITICAL") := rfl
  refine ⟨?_, ?_, ?_⟩
  · rw [hfin, (handleEvent_investigationComplete_state _ _ _).1, h6]
  · rw [hfin]
    exact (handleEvent_investigationComplete_state _ _ _).2.1
  · rw [hfin]
    exact (handleEvent_investigationComplete_state _ _ _).2.2

/-! ### Claims about the event state machine -/

/-- Counterexample for claim C2: applying the same specialist
`agent_complete` event twice in a row does *not* leave `completedAgents`
unchanged — `completedAgents++` (app.js line 329) runs on every
`agent_complete`, so a duplicate completion is double-counted. -/
theorem duplicate_agentComplete_cex :
    (handleEvent (startState "Nexus Global Holdings")
        (.agentComplete "Entity Discovery" (some 3) none [])).completedAgents = 1 ∧
    (handleEvent (handleEvent (startState "Nexus Global Holdings")
          (.agentComplete "Entity Discovery" (some 3) none []))
        (.agentComplete "Entity Discovery" (some 3) none [])).completedAgents = 2 ∧
    (2 : ℕ) ≠ 1 := by
  exact ⟨by decide, by decide, by decide⟩

/-- Claim C2 (amended): a duplicate `agent_complete` for the same agent
overwrites the agent-card record idempotently (the `agents` map after two
applications equals the map after one), but `completedAgents` is
incremented again on the second application rather than being left
unchanged. -/
theorem duplicate_agentComplete_record_idempotent (s : AppState) (agent : String)
    (rs : Option ℚ) (f : Option String) (fl : List String) :
    (handleEvent (handleEvent s (.agentComplete agent rs f fl))
        (.agentComplete agent rs f fl)).agents =
      (handleEvent s (.agentComplete agent rs f fl)).agents ∧
    (handleEvent (handleEvent s (.agentComplete agent rs f fl))
        (.agentComplete agent rs f fl)).completedAgents =
      (handleEvent s (.agentComplete agent rs f fl)).completedAgents + 1 := by
  constructor
  · rw [handleEvent_agentComplete_agents, updateAgentCard_agents,
      handleEvent_agentComplete_agents, updateAgentCard_agents]
    funext k
    by_cases hid : agentId agent ∈ specialistIds ∧ k = agentId agent <;>
      simp [hid, completeCard_idem]
  · rw [handleEvent_agentComplete_completedAgents]

/-- Counterexample for claim C3: after `stream_end` arrives while the
investigation is still running (no `investigation_complete` was seen),
the status is left as `Investigating...` with the running dot still set —
the investigation is *not* transitioned to a failed state and no error is
surfaced (`case 'stream_end'` at app.js lines 354–355 does nothing). -/
theorem streamEnd_while_running_cex :
    (applyEvents (startState "Nexus Global Holdings")
        [.investigationStarted "x1", .streamEnd]).statusText =
      "Investigating..." ∧
    (applyEvents (startState "Nexus Global Holdings")
        [.investigationStarted "x1", .streamEnd]).statusRunning = true := by
  exact ⟨by decide, by decide⟩

/-- Claim C3 (amended): `stream_end` is a no-op on the state: if it is
received while the phase is still Running, the phase simply stays Running
— no error is surfaced, and the investigation is never presented as
Complete by this event. -/
theorem streamEnd_noop (s : AppState) : handleEvent s .streamEnd = s := rfl

/-- Counterexample for claim C4: an `agent_complete` event whose agent is
the synthesis role increments `completedAgents` (to 1) even though no
specialist agent card is Complete (count 0), so `completedAgents` does
not equal the number of Complete specialists. -/
theorem synthesis_completion_counts_cex :
    (handleEvent (startState "Nexus Global Holdings")
        (.agentComplete "Risk Synthesis" (some 9) none [])).completedAgents = 1 ∧
    completeSpecialistCount (handleEvent (startState "Nexus Global Holdings")
        (.agentComplete "Risk Synthesis" (some 9) none [])) = 0 := by
  exact ⟨by decide, by decide⟩

/-- Claim C4 (amended): a synthesis `agent_complete` populates no agent
card (the `agents` map is unchanged), but `completedAgents` counts every
`agent_complete` event applied — synthesis and duplicates included — so
it equals the number of Complete specialists only when the completions
are for distinct specialist agents. -/
theorem completedAgents_counts_every_completion :
    (∀ (s : AppState) (rs : Option ℚ) (f : Option String) (fl : List String),
        (handleEvent s (.agentComplete "Risk Synthesis" rs f fl)).agents =
          s.agents) ∧
    (∀ (s : AppState) (evs : List Event),
        (applyEvents s evs).completedAgents =
          s.completedAgents + evs.countP (fun e => isAgentCompleteEvent e)) := by
  constructor
  · intro s rs f fl
    rw [handleEvent_agentComplete_agents, updateAgentCard_agents]
    have hid : agentId "Risk Synthesis" ∉ specialistIds := by decide
    funext k
    simp [hid]
  · intro s evs
    induction evs generalizing s with
    | nil => simp [applyEvents]
    | cons e evs ih =>
      show (applyEvents (handleEvent s e) evs).completedAgents = _
      rw [ih, handleEvent_completedAgents, List.countP_cons]
      ring

/-- Counterexample for claim C5: after six specialist `agent_complete`
events followed by `investigation_complete` (no synthesis
`agent_complete`), the progress fill is `6/7 · 100 = 600/7` percent, not
100 percent — the fraction divides by `TOTAL_AGENTS = 7`, not by the
specialist count 6, and `investigation_complete` never recomputes it
(though the phase does read Complete). -/
theorem progressFraction_cex :
    (applyEvents (startState "Nexus Global Holdings") demoEvents).progressPct =
      600 / 7 ∧
    (600 / 7 : ℚ) ≠ 100 ∧
    (applyEvents (startState "Nexus Global Holdings") demoEvents).statusText =
      "Complete" :=
  ⟨demoRun_final_state.1, by norm_num, demoRun_final_state.2.1⟩

/-- Claim C5 (amended): the progress fill fraction after a specialist
completion is `completedAgents / TOTAL_AGENTS` (i.e. divided by 7, the
six specialists plus synthesis), it is exactly 100 % precisely when the
synthesis `agent_complete` event is recorded, and after six specialist
completions followed by `investigation_complete` the phase is Complete
with the progress bar hidden while the last computed fill stands at
`600/7` percent. -/
theorem progressFraction_amended :
    (∀ (s : AppState) (agent : String) (rs : Option ℚ) (f : Option String)
        (fl : List String), agent ≠ "Risk Synthesis" →
        (handleEvent s (.agentComplete agent rs f fl)).progressPct =
          ((s.completedAgents : ℚ) + 1) / 7 * 100) ∧
    (∀ (s : AppState) (rs : Option ℚ) (f : Option String) (fl : List String),
        (handleEvent s (.agentComplete "Risk Synthesis" rs f fl)).progressPct =
          100) ∧
    ((applyEvents (startState "Nexus Global Holdings") demoEvents).statusText =
        "Complete" ∧
      (applyEvents (startState "Nexus Global Holdings")
          demoEvents).progressVisible = false ∧
      (applyEvents (startState "Nexus Global Holdings") demoEvents).progressPct =
        600 / 7) :=
  ⟨fun s agent rs f fl hA =>
      handleEvent_specialist_progressPct s agent rs f fl hA,
   fun s rs f fl => handleEvent_synthesis_progressPct s rs f fl,
   demoRun_final_state.2.1, demoRun_final_state.2.2, demoRun_final_state.1⟩

/-- Witness for claim C5 (amended): the first conjunct applied to the
concrete state after `runInvestigation` starts and a concrete specialist
completion. -/
theorem progressFraction_amended_witness :
    "Entity Discovery" ≠ "Risk Synthesis" ∧
    (handleEvent (startState "Nexus Global Holdings")
        (.agentComplete "Entity Discovery" (some 2) none [])).progressPct =
      (((startState "Nexus Global Holdings").completedAgents : ℚ) + 1) / 7 * 100 :=
  ⟨by decide,
   progressFraction_amended.1 (startState "Nexus Global Holdings")
     "Entity Discovery" (some 2) none [] (by decide)⟩

/-- Claim C10: the agents counter rendered by `updateAgentCounter`
displays `min(completedAgents, 6)` out of 6, and over every sequence of
applied events the visible completed-agent count never exceeds 6, even
when the internal `completedAgents` counter grows beyond 6 (synthesis or
duplicate completions also increment it). -/
theorem agentCounter_visible_bounded :
    (∀ s : AppState,
        (updateAgentCounter s).counterVisible = min s.completedAgents 6) ∧
    (∀ (target : String) (evs : List Event),
        (applyEvents (startState target) evs).counterVisible ≤ 6) := by
  constructor
  · intro s
    rfl
  · intro target evs
    exact applyEvents_counterVisible_le evs (startState target) (Nat.zero_le 6)

/-! ### Recommendation thresholds and colour classification -/

/-- Claim C6: when reconstructing a historical record, the
recommendation derived by `loadPastInvestigation` is a pure threshold
function of the overall score — `≥7.5 → REJECT`, `≥5.0 →
INVESTIGATE_FURTHER`, `≥2.5 → CONDITIONAL`, else `APPROVE` — and the
break points 2.5, 5.0 and 7.5 are exactly the break points of the
`riskColor` classification: each recommendation tier coincides with one
colour tier. -/
theorem recommendation_thresholds_match_colors (s : ℚ) :
    (proceedRecommendation s = "REJECT" ↔ 7.5 ≤ s) ∧
    (proceedRecommendation s = "INVESTIGATE_FURTHER" ↔ 5 ≤ s ∧ s < 7.5) ∧
    (proceedRecommendation s = "CONDITIONAL" ↔ 2.5 ≤ s ∧ s < 5) ∧
    (proceedRecommendation s = "APPROVE" ↔ s < 2.5) ∧
    (riskColor s = "var(--red)" ↔ proceedRecommendation s = "REJECT") ∧
    (riskColor s = "var(--orange)" ↔
      proceedRecommendation s = "INVESTIGATE_FURTHER") ∧
    (riskColor s = "var(--yellow)" ↔ proceedRecommendation s = "CONDITIONAL") ∧
    (riskColor s = "var(--green)" ↔ proceedRecommendation s = "APPROVE") := by
  rcases lt_or_le s 2.5 with h1 | h1
  · have e1 : proceedRecommendation s = "APPROVE" := by
      unfold proceedRecommendation
      rw [if_neg (show ¬ s ≥ 7.5 from not_le.mpr (by linarith)),
        if_neg (show ¬ s ≥ 5.0 from not_le.mpr (by linarith)),
        if_neg (show ¬ s ≥ 2.5 from not_le.mpr (by linarith))]
    have e2 : riskColor s = "var(--green)" := by
      unfold riskColor
      rw [if_pos h1]
    rw [e1, e2]
    refine ⟨?_, ?_, ?_, ?_, ?_, ?_, ?_, ?_⟩ <;> simp <;>
      first
        | linarith
        | (constructor <;> linarith)
        | (intro hx; linarith)
        | (rintro ⟨hx, hy⟩; linarith)
  · rcases lt_or_le s 5 with h2 | h2
    · have e1 : proceedRecommendation s = "CONDITIONAL" := by
        unfold proceedRecommendation
        rw [if_neg (show ¬ s ≥ 7.5 from not_le.mpr (by linarith)),
          if_neg (show ¬ s ≥ 5.0 from not_le.mpr (by linarith)),
          if_pos (show s ≥ 2.5 from h1)]
      have e2 : riskColor s = "var(--yellow)" := by
        unfold riskColor
        rw [if_neg (show ¬ s < 2.5 from not_lt.mpr h1),
          if_pos (show s < 5.0 from by linarith)]
      rw [e1, e2]
      refine ⟨?_, ?_, ?_, ?_, ?_, ?_, ?_, ?_⟩ <;> simp <;>
        first
          | linarith
          | (constructor <;> linarith)
          | (intro hx; linarith)
          | (rintro ⟨hx, hy⟩; linarith)
    · rcases lt_or_le s 7.5 with h3 | h3
      · have e1 : proceedRecommendation s = "INVESTIGATE_FURTHER" := by
          unfold proceedRecommendation
          rw [if_neg (show ¬ s ≥ 7.5 from not_le.mpr (by linarith)),
            if_pos (show s ≥ 5.0 by linarith)]
        have e2 : riskColor s = "var(--orange)" := by
          unfold riskColor
          rw [if_neg (show ¬ s < 2.5 from not_lt.mpr (by linarith)),
            if_neg (show ¬ s < 5.0 from not_lt.mpr (by linarith)),
            if_pos (show s < 7.5 from h3)]
        rw [e1, e2]
        refine ⟨?_, ?_, ?_, ?_, ?_, ?_, ?_, ?_⟩ <;> simp <;>
          first
            | linarith
            | (constructor <;> linarith)
            | (intro hx; linarith)
            | (rintro ⟨hx, hy⟩; linarith)
      · have e1 : proceedRecommendation s = "REJECT" := by
          unfold proceedRecommendation
          rw [if_pos (show s ≥ 7.5 from h3)]
        have e2 : riskColor s = "var(--red)" := by
          unfold riskColor
          rw [if_neg (show ¬ s < 2.5 from not_lt.mpr (by linarith)),
            if_neg (show ¬ s < 5.0 from not_lt.mpr (by linarith)),
            if_neg (show ¬ s < 7.5 from not_lt.mpr h3)]
        rw [e1, e2]
        refine ⟨?_, ?_, ?_, ?_, ?_, ?_, ?_, ?_⟩ <;> simp <;>
          first
            | linarith
            | (constructor <;> linarith)
            | (intro hx; linarith)
            | (rintro ⟨hx, hy⟩; linarith)

/-- Witness for claim C6: at the score 8 the derived recommendation is
REJECT and the colour is the highest tier. -/
theorem recommendation_thresholds_match_colors_witness :
    proceedRecommendation 8 = "REJECT" ∧ riskColor 8 = "var(--red)" :=
  ⟨(recommendation_thresholds_match_colors 8).1.mpr (by norm_num),
   (recommendation_thresholds_match_colors 8).2.2.2.2.1.mpr
     ((recommendation_thresholds_match_colors 8).1.mpr (by norm_num))⟩

/-! ### Compare-mode selection -/

theorem clickCompareCard_inv (s : CompareState) (idx : ℕ)
    (h : CompareInv s) : CompareInv (clickCompareCard s idx) := by
  obtain ⟨hlen, himp⟩ := h
  by_cases hmem : idx ∈ s.selected
  · have h1 : 0 < s.selected.length :=
      List.length_pos.mpr (List.ne_nil_of_mem hmem)
    have hl : (s.selected.erase idx).length = s.selected.length - 1 :=
      List.length_erase_of_mem hmem
    have h2 : ¬ (s.selected.erase idx).length = 2 := by omega
    simp only [clickCompareCard, if_pos hmem]
    rw [if_neg h2]
    exact ⟨by
      show (s.selected.erase idx).length ≤ 2
      omega,
      fun hc => absurd hc h2⟩
  · by_cases hlt : s.selected.length < 2
    · simp only [clickCompareCard, if_neg hmem, if_pos hlt]
      by_cases h2 : (s.selected ++ [idx]).length = 2
      · rw [if_pos h2]
        refine ⟨?_, fun hc => ⟨rfl, rfl⟩⟩
        show (s.selected ++ [idx]).length ≤ 2
        omega
      · rw [if_neg h2]
        refine ⟨?_, fun hc => absurd hc h2⟩
        show (s.selected ++ [idx]).length ≤ 2
        simp only [List.length_append, List.length_cons, List.length_nil]
        omega
    · have hl2 : s.selected.length = 2 := by omega
      simp only [clickCompareCard, if_neg hmem, if_neg hlt, if_pos hl2,
        showComparison]
      exact ⟨hlen, fun hc => ⟨rfl, rfl⟩⟩

theorem applyClicks_inv (clicks : List ℕ) :
    ∀ s : CompareState, CompareInv s → CompareInv (applyClicks s clicks) := by
  induction clicks with
  | nil => intro s h; exact h
  | cons c clicks ih =>
    intro s h
    exact ih (clickCompareCard s c) (clickCompareCard_inv s c h)

theorem enterCompareMode_inv (s : CompareState) :
    CompareInv (enterCompareMode s) := by
  refine ⟨?_, ?_⟩
  · show ([] : List ℕ).length ≤ 2
    simp
  · intro hc
    simp [enterCompareMode] at hc

/-- Claim C9: in compare mode a click toggles membership in the selected
pair up to a cap of 2.  Every state reached by clicks from entering
compare mode satisfies the controller invariant; from any such state,
toggling off a previously selected record always succeeds, clicking a
third record while two are already selected is a no-op (the whole state
is unchanged), and the moment the pair reaches exactly two members the
comparison of that pair is emitted and the mode resets to normal. -/
theorem compare_pair_selection :
    (∀ (s0 : CompareState) (clicks : List ℕ),
        CompareInv (applyClicks (enterCompareMode s0) clicks)) ∧
    (∀ (s : CompareState) (idx : ℕ), CompareInv s →
      (idx ∈ s.selected →
        (clickCompareCard s idx).selected = s.selected.erase idx) ∧
      (s.selected.length = 2 → idx ∉ s.selected → clickCompareCard s idx = s) ∧
      (s.selected.length = 1 → idx ∉ s.selected →
        (clickCompareCard s idx).selected = s.selected ++ [idx] ∧
        (clickCompareCard s idx).comparison =
          some (s.selected.getD 0 0, idx) ∧
        (clickCompareCard s idx).compareMode = false)) := by
  constructor
  · intro s0 clicks
    exact applyClicks_inv clicks (enterCompareMode s0) (enterCompareMode_inv s0)
  · intro s idx hinv
    refine ⟨?_, ?_, ?_⟩
    · intro hmem
      simp only [clickCompareCard, if_pos hmem]
      split_ifs <;> rfl
    · intro hlen hmem
      obtain ⟨hc, hm⟩ := hinv.2 hlen
      have hnlt : ¬ s.selected.length < 2 := by omega
      simp only [clickCompareCard, if_neg hmem, if_neg hnlt, if_pos hlen,
        showComparison]
      obtain ⟨mode, sel, comp⟩ := s
      simp_all
    · intro hlen1 hmem
      have hsel : (if idx ∈ s.selected then s.selected.erase idx
          else if s.selected.length < 2 then s.selected ++ [idx]
          else s.selected) = s.selected ++ [idx] := by
        rw [if_neg hmem, if_pos (by omega)]
      have hlen2 : (s.selected ++ [idx]).length = 2 := by
        simp [hlen1]
      obtain ⟨a, ha⟩ := List.length_eq_one.mp hlen1
      simp only [clickCompareCard, hsel]
      rw [if_pos hlen2]
      refine ⟨rfl, ?_, rfl⟩
      rw [ha]
      rfl

/-- Witness for claim C9: after entering compare mode and clicking
records 0 and 1, clicking record 5 leaves the whole state unchanged. -/
theorem compare_pair_selection_witness :
    (applyClicks (enterCompareMode ⟨false, [], none⟩) [0, 1]).selected.length = 2 ∧
    (5 : ℕ) ∉ (applyClicks (enterCompareMode ⟨false, [], none⟩) [0, 1]).selected ∧
    clickCompareCard (applyClicks (enterCompareMode ⟨false, [], none⟩) [0, 1]) 5 =
      applyClicks (enterCompareMode ⟨false, [], none⟩) [0, 1] :=
  ⟨by decide, by decide,
   (compare_pair_selection.2 (applyClicks (enterCompareMode ⟨false, [], none⟩) [0, 1]) 5
       (compare_pair_selection.1 ⟨false, [], none⟩ [0, 1])).2.1
     (by decide) (by decide)⟩

/-! ### Network graph -/

/-- Claim C7: for a primary entity plus N ≥ 1 children, the layout
places the primary at the geometric centre of an area whose height is
`max(320, 30·nodeCount)`, and the i-th of the N children on a circle of
radius `0.35·min(width, height)` at angle `(2π·i/N) − π/2`; the
positions are a pure function of the child count and the bounding area,
so identical inputs give identical positions. -/
theorem graph_layout_positions (w : ℚ) (nodes : List GNode) (i : ℕ)
    (hi : i < nodes.length - 1) :
    (nodePositions w nodes)[0]? =
      some (((specAreaWidth w / 2 : ℚ) : ℝ),
        ((specAreaHeight nodes.length / 2 : ℚ) : ℝ)) ∧
    (nodePositions w nodes)[i + 1]? =
      some (specChildPosition (specAreaWidth w) (specAreaHeight nodes.length)
        (nodes.length - 1) i) ∧
    (∀ nodes' : List GNode, nodes'.length = nodes.length →
      nodePositions w nodes' = nodePositions w nodes) := by
  refine ⟨?_, ?_, ?_⟩
  · simp only [nodePositions, List.getElem?_cons_zero]
    rfl
  · simp only [nodePositions]
    rw [List.getElem?_cons_succ, List.getElem?_map, List.getElem?_range hi]
    rfl
  · intro nodes' hlen
    simp only [nodePositions, hlen]

/-- Witness for claim C7: a concrete layout with a primary, one
subsidiary and one related entity; the second child (index 1 of N = 2)
sits at the spec position. -/
theorem graph_layout_positions_witness :
    1 < (buildNodes "ACME Corp" "US"
        [⟨"Sub One", "", "KY"⟩] [⟨"Rel One", "", "BVI"⟩]).length - 1 ∧
    (nodePositions 700 (buildNodes "ACME Corp" "US"
        [⟨"Sub One", "", "KY"⟩] [⟨"Rel One", "", "BVI"⟩]))[2]? =
      some (specChildPosition (specAreaWidth 700)
        (specAreaHeight (buildNodes "ACME Corp" "US"
          [⟨"Sub One", "", "KY"⟩] [⟨"Rel One", "", "BVI"⟩]).length)
        ((buildNodes "ACME Corp" "US"
          [⟨"Sub One", "", "KY"⟩] [⟨"Rel One", "", "BVI"⟩]).length - 1) 1) :=
  ⟨by decide,
   (graph_layout_positions 700 (buildNodes "ACME Corp" "US"
       [⟨"Sub One", "", "KY"⟩] [⟨"Rel One", "", "BVI"⟩]) 1 (by decide)).2.1⟩

/-- Counterexample for claim C8: with an unnamed primary, no
subsidiaries but a nonempty related-entity list, the renderer still
suppresses rendering entirely (`!primary.name && subs.length === 0`
never consults the related list), contradicting "suppresses exactly when
there are no subsidiaries, no related entities, and the primary entity
has no name". -/
theorem graph_suppression_cex :
    renderNetworkGraph "" "" [] [⟨"Offshore Ltd", "", "BVI"⟩] =
      GraphOutcome.hidden ∧
    ([(⟨"Offshore Ltd", "", "BVI"⟩ : RawEntity)] : List RawEntity) ≠ [] :=
  ⟨by decide, by decide⟩

/-- Claim C8 (amended): the renderer suppresses rendering exactly when
the primary has no name and there are no subsidiaries (the related list
is not consulted), and it renders the "no relationships found"
placeholder exactly when the primary has a name and there are neither
subsidiaries nor related entities (the single-node case). -/
theorem graph_suppression_amended (pn pj : String)
    (subs related : List RawEntity) :
    (renderNetworkGraph pn pj subs related = GraphOutcome.hidden ↔
      pn = "" ∧ subs = []) ∧
    (renderNetworkGraph pn pj subs related = GraphOutcome.placeholder ↔
      ¬ pn = "" ∧ subs = [] ∧ related = []) := by
  have hlen : (buildNodes pn pj subs related).length =
      1 + subs.length + related.length := by
    simp only [buildNodes, List.length_cons, List.length_append,
      List.length_map, List.enum_length]
    omega
  simp only [renderNetworkGraph]
  split_ifs with h h2
  · constructor
    · simp [h.1, h.2]
    · simp [h.1]
  · rw [hlen] at h2
    have hs : subs = [] := List.length_eq_zero.mp (by omega)
    have hr : related = [] := List.length_eq_zero.mp (by omega)
    have hpn : ¬ pn = "" := fun hpn => h ⟨hpn, hs⟩
    constructor
    · simp [hpn]
    · simp [hs, hr, hpn]
  · rw [hlen] at h2
    constructor
    · constructor
      · intro hc
        exact absurd hc (by simp)
      · intro hc
        exact absurd hc h
    · constructor
      · intro hc
        exact absurd hc (by simp)
      · rintro ⟨hp, hs, hr⟩
        exact absurd (by simp [hs, hr] : 1 + subs.length + related.length = 1) h2

/-- Witness for claim C8 (amended): a named primary with no subsidiaries
and no related entities renders the placeholder. -/
theorem graph_suppression_amended_witness :
    renderNetworkGraph "ACME Corp" "" [] [] = GraphOutcome.placeholder :=
  (graph_suppression_amended "ACME Corp" "" [] []).2.mpr
    ⟨by decide, rfl, rfl⟩

end Meridian
